import Mathlib

/-!
Verification of the passman encrypted storage engine against its specification.

The development shallowly embeds the Rust source under `src/`:

* `src/version/v0_3.rs` — the salted encryption codec (`encrypt`,
  `encrypt_with_salt`, `decrypt`) built on AES-256-CBC with PKCS7 padding,
  and the v0.3 format model;
* `src/version/v0_4.rs` — the current format model (`set_key`, `to_current`,
  accessor-layer mutations, TOTP display);
* `src/version/v0_2.rs` — the oldest format model and its migration;
* `src/version/latest.rs` — `Keyed::from_plaintext`.

The AES-256 block cipher, the Argon2id/SHA-256 password hashes and the
`google_authenticator` TOTP code computation are external crates; they are
modelled as function parameters (`E`, `D`, `kdf`, `get_code`).  CBC mode and
PKCS7 padding (crate `block_modes`) are embedded concretely, because the
repository's codec layers its salt encoding inside them.  Bytes are natural
numbers; every byte produced by the source is below 256, but none of the
operations used here needs that bound.  `SystemTime` values are modelled as
naturals.  Rust panics reachable from the embedded code paths are modelled
explicitly as a `panics` result constructor.
-/

namespace Passman

/-- Byte strings, as in the source's `Vec<u8>` / `&[u8]`. -/
abbrev Bytes := List Nat

/-- Pointwise XOR of two byte strings, as used by CBC block chaining. -/
def xorBytes (a b : Bytes) : Bytes := List.zipWith Nat.xor a b

/-- PKCS7 padding to a multiple of the 16-byte AES block size, as implemented
by the `block-padding` crate used through `block_modes::Cbc<Aes256, Pkcs7>`:
append `k` copies of the byte `k`, where `k = 16 - len % 16` (so `1 ≤ k ≤ 16`). -/
def pkcs7Pad (data : Bytes) : Bytes :=
  data ++ List.replicate (16 - data.length % 16) (16 - data.length % 16)

/-- PKCS7 unpadding, as implemented by the `block-padding` crate: read the last
byte `n`; fail if the input is empty, `n = 0`, or `n` exceeds the length;
fail unless the last `n` bytes all equal `n`; otherwise strip them. -/
def pkcs7Unpad (data : Bytes) : Option Bytes :=
  match data.getLast? with
  | none => none
  | some n =>
    if n = 0 ∨ data.length < n then none
    else if (data.drop (data.length - n)).all (fun x => x = n) then
      some (data.take (data.length - n))
    else none

/-- Fuel-indexed worker for `toBlocks`; the fuel only forces structural
termination and never runs out when it starts at the list length. -/
def toBlocksGo (fuel : Nat) (l : Bytes) : List Bytes :=
  match fuel, l with
  | _, [] => []
  | 0, _ :: _ => []
  | fuel + 1, x :: xs => ((x :: xs).take 16) :: toBlocksGo fuel ((x :: xs).drop 16)

/-- Splits a byte string into consecutive 16-byte blocks (the last block is
shorter when the length is not a multiple of 16; callers guard for that). -/
def toBlocks (l : Bytes) : List Bytes := toBlocksGo l.length l

/-- CBC encryption of a block sequence under the keyed block-cipher map `E`,
with `prev` the previous ciphertext block (initially the IV):
`c_i = E (m_i ^^^ c_(i-1))`. -/
def cbcEncBlocks (E : Bytes → Bytes) (prev : Bytes) : List Bytes → List Bytes
  | [] => []
  | b :: bs =>
    let c := E (xorBytes b prev)
    c :: cbcEncBlocks E c bs

/-- CBC decryption of a block sequence under the keyed block-cipher inverse `D`:
`m_i = D c_i ^^^ c_(i-1)`. -/
def cbcDecBlocks (D : Bytes → Bytes) (prev : Bytes) : List Bytes → List Bytes
  | [] => []
  | c :: cs => xorBytes (D c) prev :: cbcDecBlocks D c cs

/-- The `block_modes` crate's `encrypt_vec`: PKCS7-pad, then CBC-encrypt. -/
def encrypt_vec (E : Bytes → Bytes) (iv data : Bytes) : Bytes :=
  (cbcEncBlocks E iv (toBlocks (pkcs7Pad data))).flatten

/-- The `block_modes` crate's `decrypt_vec`: fail unless the length is a
multiple of the block size, CBC-decrypt, then PKCS7-unpad (failure of the
unpadding is the cipher-level decryption failure). -/
def decrypt_vec (D : Bytes → Bytes) (iv data : Bytes) : Option Bytes :=
  if data.length % 16 = 0 then
    pkcs7Unpad ((cbcDecBlocks D iv (toBlocks data)).flatten)
  else none

/-- Constant `SALT_MIN_LENGTH` of `src/version/v0_3.rs`. -/
def SALT_MIN_LENGTH : Nat := 17

/-- Constant `SALT_MAX_LENGTH` of `src/version/v0_3.rs`. -/
def SALT_MAX_LENGTH : Nat := 32

/-- UTF-8 encoding of one character (the standard encoding used by Rust's
`str::as_bytes`). -/
def utf8EncodeCharBytes (c : Char) : List Nat :=
  let n := c.toNat
  if n < 0x80 then [n]
  else if n < 0x800 then [0xC0 ||| (n >>> 6), 0x80 ||| (n &&& 0x3F)]
  else if n < 0x10000 then
    [0xE0 ||| (n >>> 12), 0x80 ||| ((n >>> 6) &&& 0x3F), 0x80 ||| (n &&& 0x3F)]
  else
    [0xF0 ||| (n >>> 18), 0x80 ||| ((n >>> 12) &&& 0x3F), 0x80 ||| ((n >>> 6) &&& 0x3F),
      0x80 ||| (n &&& 0x3F)]

/-- UTF-8 bytes of a string, as Rust's `str::as_bytes`. -/
def strBytes (s : String) : Bytes := s.data.flatMap utf8EncodeCharBytes

/-- UTF-8 decoding, as Rust's `String::from_utf8` validity check: rejects
stray continuation bytes, truncated sequences, overlong encodings,
surrogates and code points above `0x10FFFF`. -/
def utf8DecodeGo : List Nat → Option (List Char)
  | [] => some []
  | b :: rest =>
    if b < 0x80 then (utf8DecodeGo rest).map (fun cs => Char.ofNat b :: cs)
    else if b < 0xC0 then none
    else if b < 0xE0 then
      match rest with
      | b2 :: rest2 =>
        if 0x80 ≤ b2 ∧ b2 < 0xC0 then
          let n := ((b &&& 0x1F) <<< 6) ||| (b2 &&& 0x3F)
          if n < 0x80 then none
          else (utf8DecodeGo rest2).map (fun cs => Char.ofNat n :: cs)
        else none
      | [] => none
    else if b < 0xF0 then
      match rest with
      | b2 :: b3 :: rest3 =>
        if (0x80 ≤ b2 ∧ b2 < 0xC0) ∧ (0x80 ≤ b3 ∧ b3 < 0xC0) then
          let n := ((b &&& 0x0F) <<< 12) ||| ((b2 &&& 0x3F) <<< 6) ||| (b3 &&& 0x3F)
          if n < 0x800 ∨ (0xD800 ≤ n ∧ n < 0xE000) then none
          else (utf8DecodeGo rest3).map (fun cs => Char.ofNat n :: cs)
        else none
      | _ => none
    else
      match rest with
      | b2 :: b3 :: b4 :: rest4 =>
        if (0x80 ≤ b2 ∧ b2 < 0xC0) ∧ (0x80 ≤ b3 ∧ b3 < 0xC0) ∧ (0x80 ≤ b4 ∧ b4 < 0xC0) then
          let n := ((b &&& 0x07) <<< 18) ||| ((b2 &&& 0x3F) <<< 12) |||
            ((b3 &&& 0x3F) <<< 6) ||| (b4 &&& 0x3F)
          if n < 0x10000 ∨ 0x110000 ≤ n then none
          else (utf8DecodeGo rest4).map (fun cs => Char.ofNat n :: cs)
        else none
      | _ => none

/-- Rust's `String::from_utf8(bytes).ok()`. -/
def bytesToString? (l : Bytes) : Option String := (utf8DecodeGo l).map (fun cs => ⟨cs⟩)

/-- Constant `ENCRYPT_TOKEN` of `src/version/v0_3.rs`:
`"encryption token ☺".as_bytes()`. -/
def ENCRYPT_TOKEN : Bytes := strBytes "encryption token ☺"

/-- Salt-length encoding step of `encrypt_with_salt` (v0_3.rs line 105):
`salt[0] = salt[0] & 0xF0 | (salt.len() - SALT_MIN_LENGTH)`. -/
def encodeSaltLen (salt : Bytes) : Bytes :=
  match salt with
  | [] => []
  | b :: rest => ((b &&& 0xF0) ||| (rest.length + 1 - SALT_MIN_LENGTH)) :: rest

/-- Function `encrypt_with_salt` of `src/version/v0_3.rs` (lines 100–114):
encode the salt length into the low 4 bits of the salt's first byte, then
AES-256-CBC-PKCS7-encrypt `salt ++ val`.  `E` is the block encryption map of
the external AES-256 cipher, taking the key and one 16-byte block.  The
source asserts `17 ≤ salt.len() ≤ 32`; all uses keep the salt in that range. -/
def encrypt_with_salt (E : Bytes → Bytes → Bytes) (val salt iv key : Bytes) : Bytes :=
  encrypt_vec (E key) iv (encodeSaltLen salt ++ val)

/-- Minimum salt length chosen by `encrypt` for a value of length `n`
(v0_3.rs lines 85–87): `SALT_MAX_LENGTH.saturating_sub(n).max(SALT_MIN_LENGTH)`. -/
def min_salt_len_of (n : Nat) : Nat := max (SALT_MAX_LENGTH - n) SALT_MIN_LENGTH

/-- Function `encrypt` of `src/version/v0_3.rs` (lines 79–98).  The thread-rng
draws are passed in explicitly: `max_len_salt` is the 32 random bytes and
`salt_len` the drawn length, which the source's `gen_range` keeps in
`[min_salt_len_of val.length, SALT_MAX_LENGTH]`. -/
def encrypt (E : Bytes → Bytes → Bytes) (val iv key : Bytes)
    (max_len_salt : Bytes) (salt_len : Nat) : Bytes :=
  encrypt_with_salt E val (max_len_salt.take salt_len) iv key

/-- Outcome of the salted `decrypt`: a Rust panic, a `None` return, or a
`Some` return. -/
inductive DecryptResult where
  | panics
  | fails
  | ok (v : Bytes)
deriving DecidableEq, Repr

/-- Function `decrypt` of `src/version/v0_3.rs` (lines 116–126): CBC-decrypt
(`None` on failure), then read the salt length from the low 4 bits of the
first byte and strip the salt.  The source indexes `decrypted[0]` (a panic on
an empty payload), asserts the recovered length is in range (a panic if not),
and calls `decrypted.drain(..salt_len)` (a panic when `salt_len` exceeds the
payload length); those panics are modelled as `.panics`. -/
def decrypt (D : Bytes → Bytes → Bytes) (val iv key : Bytes) : DecryptResult :=
  match decrypt_vec (D key) iv val with
  | none => .fails
  | some decrypted =>
    match decrypted with
    | [] => .panics
    | b0 :: _ =>
      let salt_len := (b0 &&& 0x0F) + SALT_MIN_LENGTH
      if ¬(SALT_MIN_LENGTH ≤ salt_len ∧ salt_len ≤ SALT_MAX_LENGTH) then .panics
      else if decrypted.length < salt_len then .panics
      else .ok (decrypted.drop salt_len)

/-- Enum `ValueKind` of the version module root (declared outside `src/`;
its three variants are used by every version file). -/
inductive ValueKind where
  | Basic
  | Protected
  | Totp
deriving DecidableEq, Repr

/-- Enum `DecryptError` of `src/version/errors.rs`. -/
inductive DecryptError where
  | BadCrypt
  | BadUtf8
deriving DecidableEq, Repr

/-- Enum `SetFieldError` of `src/version/errors.rs`. -/
inductive SetFieldError where
  | ContentsNotUnlocked (kind : ValueKind)
deriving DecidableEq, Repr

/-- Enum `GetValueError` of `src/version/errors.rs`. -/
inductive GetValueError where
  | ContentsNotUnlocked
  | Decrypt (e : DecryptError)
  | BadTotpSecret
deriving DecidableEq, Repr

/-- Enum `SwapEncryptionError` of `src/version/errors.rs` (the `Encrypt`
variant is never produced by the embedded code paths). -/
inductive SwapEncryptionError where
  | ContentsNotUnlocked
  | Encrypt
  | Decrypt (e : DecryptError)
  | IsTotp
deriving DecidableEq, Repr

/-- Enum `PlaintextValue` of the version module root, as used by
`v0_2.rs`/`v0_3.rs`/`v0_4.rs`: a manual value with a protected flag, or a
TOTP issuer/secret pair.  Rust's field name `protected` is a Lean keyword,
so it is rendered `is_protected`. -/
inductive PlaintextValue where
  | Manual (value : String) (is_protected : Bool)
  | Totp (issuer : String) (secret : String)
deriving DecidableEq, Repr

/-- Modelled from the spec: struct `Keyed<FileContent>` of the version module
root (not under `src/`): "owns exactly one FileContent, an `Option` derived
key (`None` until a correct password has been supplied), and an
unsaved-changes flag"; `Keyed::new` wraps a content with no key and a clear
unsaved flag (as observed at every `Keyed::new` call site in `src/`). -/
structure Keyed (α : Type) where
  content : α
  key : Option Bytes
  unsaved : Bool
deriving DecidableEq, Repr

/-- Constructor `Keyed::new`. -/
def Keyed.new (c : α) : Keyed α := ⟨c, none, false⟩

/-- Outcome of `decrypt_string` (v0_3.rs lines 128–131): a panic propagated
from `decrypt`, a typed error, or the decoded string. -/
inductive StringResult where
  | panics
  | err (e : DecryptError)
  | ok (s : String)
deriving DecidableEq, Repr

/-- Function `decrypt_string` of `src/version/v0_3.rs` (lines 128–131), also
re-exported by v0_4: salted decrypt (`None` becomes `BadCrypt`), then UTF-8
validation (`BadUtf8`). -/
def decrypt_string (D : Bytes → Bytes → Bytes) (val iv key : Bytes) : StringResult :=
  match decrypt D val iv key with
  | .panics => .panics
  | .fails => .err .BadCrypt
  | .ok bs =>
    match bytesToString? bs with
    | none => .err .BadUtf8
    | some s => .ok s

namespace V04

/-- Constant `VERSION_STR` of `src/version/v0_4.rs`. -/
def VERSION_STR : String := "v0.4"

/-- Enum `Value` of `src/version/v0_4.rs`. -/
inductive Value where
  | Basic (s : String)
  | Protected (bs : Bytes)
  | Totp (issuer : String) (secret : Bytes)
deriving DecidableEq, Repr

/-- Struct `Field` of `src/version/v0_4.rs`. -/
structure Field where
  name : String
  value : Value
deriving DecidableEq, Repr

/-- Struct `Entry` of `src/version/v0_4.rs`; timestamps are naturals. -/
structure Entry where
  name : String
  tags : List String
  fields : List Field
  first_added : Nat
  last_update : Nat
deriving DecidableEq, Repr

/-- Struct `FileContent` of `src/version/v0_4.rs`. -/
structure FileContent where
  version : String
  token : Bytes
  iv : Bytes
  salt : String
  last_update : Nat
  inner : List Entry
deriving DecidableEq, Repr

/-- Outcome of `set_key`: `Ok(())`, `Err(e)`, or a panic propagated from
`decrypt`. -/
inductive SetKeyOutcome where
  | panics
  | ok
  | err (e : DecryptError)
deriving DecidableEq, Repr

/-- Method `FileContent::set_key` of `src/version/v0_4.rs` (lines 85–100).
The Argon2id hash `hash_key(salt, key)` is the external-crate parameter
`kdf`; `D` is the AES-256 block decryption map. -/
def set_key (kdf : String → String → Bytes) (D : Bytes → Bytes → Bytes)
    (st : Keyed FileContent) (key : String) : Keyed FileContent × SetKeyOutcome :=
  let hashed := kdf st.content.salt key
  match Passman.decrypt D st.content.token st.content.iv hashed with
  | .panics => (st, .panics)
  | .fails => (st, .err .BadCrypt)
  | .ok bs =>
    if bs = ENCRYPT_TOKEN then ({ st with key := some hashed }, .ok)
    else (st, .err .BadCrypt)

/-- Outcome of `to_current`. -/
inductive ToCurrentResult where
  | panics
  | err (e : DecryptError)
  | ok (st : Keyed FileContent)
deriving DecidableEq, Repr

/-- Method `FileContent::to_current` of `src/version/v0_4.rs` (lines 72–78):
`self.set_key(pwd)?; Ok(self)`. -/
def to_current (kdf : String → String → Bytes) (D : Bytes → Bytes → Bytes)
    (st : Keyed FileContent) (pwd : String) : ToCurrentResult :=
  match set_key kdf D st pwd with
  | (st2, .ok) => .ok st2
  | (_, .err e) => .err e
  | (_, .panics) => .panics

/-- Method `FileContent::num_entries` of `src/version/v0_4.rs`. -/
def num_entries (st : Keyed FileContent) : Nat := st.content.inner.length

/-- Method `FileContent::add_empty_entry` of `src/version/v0_4.rs`
(lines 140–154); `now` is the `SystemTime::now()` value. -/
def add_empty_entry (st : Keyed FileContent) (name : String) (now : Nat) :
    Keyed FileContent × Nat :=
  let idx := num_entries st
  ({ st with
      content := { st.content with
        inner := st.content.inner ++
          [{ name := name, tags := [], fields := [], first_added := now, last_update := now }],
        last_update := now },
      unsaved := true }, idx)

/-- Borrowed state of `EntryMut` (v0_4.rs lines 174–179): the entry, the
store-wide `last_update` behind `global_update`, and the unsaved flag. -/
structure EntryMutState where
  entry : Entry
  global_update : Nat
  unsaved : Bool
deriving DecidableEq, Repr

/-- Method `EntryMut::updated` of `src/version/v0_4.rs` (lines 217–225). -/
def EntryMutState.updated (now : Nat) (st : EntryMutState) : EntryMutState :=
  { st with
      entry := { st.entry with last_update := now },
      global_update := now,
      unsaved := true }

/-- Method `EntryMut::set_name` of `src/version/v0_4.rs`. -/
def set_name (n : String) (now : Nat) (st : EntryMutState) : EntryMutState :=
  EntryMutState.updated now { st with entry := { st.entry with name := n } }

/-- Method `EntryMut::set_tags` of `src/version/v0_4.rs`. -/
def set_tags (tags : List String) (now : Nat) (st : EntryMutState) : EntryMutState :=
  EntryMutState.updated now { st with entry := { st.entry with tags := tags } }

/-- Method `EntryMut::set_field` of `src/version/v0_4.rs` (lines 255–300),
with the builder's staged name and `PlaintextValue` passed directly (the
source panics when they were not set).  `salt_bytes`/`salt_len` are the
thread-rng draws of the inner `encrypt` call.  The source's
`self.entry.fields[idx] = field` panics for `idx > len`; callers validate
indices, and the embedding is used with `idx ≤ len`. -/
def set_field (E : Bytes → Bytes → Bytes) (iv : Bytes) (key : Option Bytes)
    (salt_bytes : Bytes) (salt_len : Nat)
    (idx : Nat) (name : String) (pv : PlaintextValue) (now : Nat) (st : EntryMutState) :
    Except SetFieldError EntryMutState :=
  let value? : Except SetFieldError Value :=
    match pv with
    | .Manual value false => .ok (.Basic value)
    | .Manual value true =>
      match key with
      | some k => .ok (.Protected (encrypt E (strBytes value) iv k salt_bytes salt_len))
      | none => .error (.ContentsNotUnlocked .Totp)
    | .Totp issuer secret =>
      match key with
      | some k => .ok (.Totp issuer (encrypt E (strBytes secret) iv k salt_bytes salt_len))
      | none => .error (.ContentsNotUnlocked .Totp)
  match value? with
  | .error e => .error e
  | .ok value =>
    let field : Field := { name := name, value := value }
    let fields :=
      if idx = st.entry.fields.length then st.entry.fields ++ [field]
      else st.entry.fields.set idx field
    .ok (EntryMutState.updated now { st with entry := { st.entry with fields := fields } })

/-- Method `EntryMut::remove_field` of `src/version/v0_4.rs` (lines 302–305).
Rust's `Vec::remove` panics for an out-of-range index (a documented caller
precondition, spec §7); the embedding is used with `idx < len`. -/
def remove_field (idx : Nat) (now : Nat) (st : EntryMutState) : EntryMutState :=
  EntryMutState.updated now
    { st with entry := { st.entry with fields := st.entry.fields.eraseIdx idx } }

/-- Borrowed state of `FieldMut` (v0_4.rs lines 313–319). -/
structure FieldMutState where
  field : Field
  entry_update : Nat
  global_update : Nat
  unsaved : Bool
deriving DecidableEq, Repr

/-- Method `FieldMut::updated` of `src/version/v0_4.rs` (lines 381–389). -/
def FieldMutState.updated (now : Nat) (st : FieldMutState) : FieldMutState :=
  { st with entry_update := now, global_update := now, unsaved := true }

/-- Outcome of `swap_encryption`. -/
inductive SwapResult where
  | panics
  | err (e : SwapEncryptionError)
  | ok (st : FieldMutState)
deriving DecidableEq, Repr

/-- Method `FieldMut::swap_encryption` of `src/version/v0_4.rs`
(lines 391–410). -/
def swap_encryption (E D : Bytes → Bytes → Bytes) (iv : Bytes) (key : Option Bytes)
    (salt_bytes : Bytes) (salt_len : Nat) (now : Nat) (st : FieldMutState) : SwapResult :=
  match key with
  | none => .err .ContentsNotUnlocked
  | some k =>
    match st.field.value with
    | .Basic s =>
      .ok (FieldMutState.updated now
        { st with field := { st.field with
            value := .Protected (encrypt E (strBytes s) iv k salt_bytes salt_len) } })
    | .Protected bs =>
      match decrypt_string D bs iv k with
      | .panics => .panics
      | .err e => .err (.Decrypt e)
      | .ok s =>
        .ok (FieldMutState.updated now
          { st with field := { st.field with value := .Basic s } })
    | .Totp _ _ => .err .IsTotp

/-- Outcome of `FieldRef::value`. -/
inductive ValueResult where
  | panics
  | err (e : GetValueError)
  | ok (s : String)
deriving DecidableEq, Repr

/-- Display string built by the Totp arm of `FieldRef::value`:
`format!("{code}  (00:{secs_remaining:02} remaining)")` (the remaining
seconds are in `[1, 30]`, so two digits suffice). -/
def totpDisplay (code : String) (secs_remaining : Nat) : String :=
  code ++ "  (00:" ++
    (if secs_remaining < 10 then "0" ++ toString secs_remaining else toString secs_remaining) ++
    " remaining)"

/-- Method `FieldRef::value` of `src/version/v0_4.rs` (lines 337–356).
`get_code` is the external `google_authenticator` code computation (`none`
embeds its `Err`, i.e. an invalid TOTP secret); `unix_time` is the current
Unix time in seconds.  The source's UI side channel
(`send_refresh_tick_after_1_second`) has no effect on the returned value. -/
def value (D : Bytes → Bytes → Bytes) (get_code : String → Nat → Option String)
    (unix_time : Nat) (iv : Bytes) (key : Option Bytes) (f : Field) : ValueResult :=
  match f.value, key with
  | .Basic s, _ => .ok s
  | .Protected bs, some k =>
    match decrypt_string D bs iv k with
    | .panics => .panics
    | .err e => .err (.Decrypt e)
    | .ok s => .ok s
  | .Totp _ secret, some k =>
    match decrypt_string D secret iv k with
    | .panics => .panics
    | .err e => .err (.Decrypt e)
    | .ok secret_plaintext =>
      let time_slice := unix_time / 30
      match get_code secret_plaintext time_slice with
      | none => .err .BadTotpSecret
      | some code => .ok (totpDisplay code (30 - unix_time % 30))
  | .Protected _, none => .err .ContentsNotUnlocked
  | .Totp _ _, none => .err .ContentsNotUnlocked

end V04

namespace V03

/-- Constant `VERSION_STR` of `src/version/v0_3.rs`. -/
def VERSION_STR : String := "v0.3"

/-- Enum `Value` of `src/version/v0_3.rs` (no Totp variant). -/
inductive Value where
  | Basic (s : String)
  | Protected (bs : Bytes)
deriving DecidableEq, Repr

/-- Struct `Field` of `src/version/v0_3.rs`. -/
structure Field where
  name : String
  value : Value
deriving DecidableEq, Repr

/-- Struct `Entry` of `src/version/v0_3.rs`. -/
structure Entry where
  name : String
  tags : List String
  fields : List Field
  first_added : Nat
  last_update : Nat
deriving DecidableEq, Repr

/-- Struct `FileContent` of `src/version/v0_3.rs`. -/
structure FileContent where
  version : String
  token : Bytes
  iv : Bytes
  salt : String
  last_update : Nat
  inner : List Entry
deriving DecidableEq, Repr

/-- Value conversion performed inside `FileContent::to_current` of
`src/version/v0_3.rs` (lines 186–189): `Basic`/`Protected` carried over
unchanged, ciphertext bytes included. -/
def Value.toV04 : Value → V04.Value
  | .Basic s => .Basic s
  | .Protected bs => .Protected bs

/-- Field conversion of v0_3's `to_current` (lines 184–191). -/
def Field.toV04 (f : Field) : V04.Field := { name := f.name, value := f.value.toV04 }

/-- Entry conversion of v0_3's `to_current` (lines 179–192). -/
def Entry.toV04 (e : Entry) : V04.Entry :=
  { name := e.name, tags := e.tags, fields := e.fields.map Field.toV04,
    first_added := e.first_added, last_update := e.last_update }

/-- Content conversion of v0_3's `to_current` (lines 172–193): token, IV,
password salt, timestamp and entries are copied field-by-field; only the
version string changes. -/
def FileContent.toV04 (c : FileContent) : V04.FileContent :=
  { version := V04.VERSION_STR, token := c.token, iv := c.iv, salt := c.salt,
    last_update := c.last_update, inner := c.inner.map Entry.toV04 }

/-- Method `FileContent::to_current` of `src/version/v0_3.rs` (lines 165–196):
convert the content directly (same password hash and encryption as v0.4) and
delegate to v0.4's `to_current` on a freshly wrapped `Keyed` (so the old key
and unsaved flag are dropped). -/
def to_current (kdf : String → String → Bytes) (D : Bytes → Bytes → Bytes)
    (st : Keyed FileContent) (pwd : String) : V04.ToCurrentResult :=
  V04.to_current kdf D (Keyed.new st.content.toV04) pwd

/-- Method `FileContent::num_entries` of `src/version/v0_3.rs`. -/
def num_entries (st : Keyed FileContent) : Nat := st.content.inner.length

/-- Method `FileContent::add_empty_entry` of `src/version/v0_3.rs`
(lines 258–272). -/
def add_empty_entry (st : Keyed FileContent) (name : String) (now : Nat) :
    Keyed FileContent × Nat :=
  let idx := num_entries st
  ({ st with
      content := { st.content with
        inner := st.content.inner ++
          [{ name := name, tags := [], fields := [], first_added := now, last_update := now }],
        last_update := now },
      unsaved := true }, idx)

/-- Borrowed state of v0_3's `EntryMut` (v0_3.rs lines 292–297). -/
structure EntryMutState where
  entry : Entry
  global_update : Nat
  unsaved : Bool
deriving DecidableEq, Repr

/-- Method `EntryMut::updated` of `src/version/v0_3.rs` (lines 335–343). -/
def EntryMutState.updated (now : Nat) (st : EntryMutState) : EntryMutState :=
  { st with
      entry := { st.entry with last_update := now },
      global_update := now,
      unsaved := true }

/-- Method `EntryMut::set_field` of `src/version/v0_3.rs` (lines 374–406),
with the builder's staged `name`, `value` and `is_protected` passed directly
(the source panics when they were not set).  The `(is_protected, key)` match
(lines 388–395) stores `Value::Basic` for `is_protected == true` and
encrypts for `is_protected == false`. -/
def set_field (E : Bytes → Bytes → Bytes) (iv : Bytes) (key : Option Bytes)
    (salt_bytes : Bytes) (salt_len : Nat)
    (idx : Nat) (name : String) (value : String) (is_protected : Bool) (now : Nat)
    (st : EntryMutState) : Except SetFieldError EntryMutState :=
  let value? : Except SetFieldError Value :=
    match is_protected, key with
    | true, _ => .ok (.Basic value)
    | false, some k => .ok (.Protected (encrypt E (strBytes value) iv k salt_bytes salt_len))
    | false, none => .error (.ContentsNotUnlocked .Protected)
  match value? with
  | .error e => .error e
  | .ok v =>
    let field : Field := { name := name, value := v }
    let fields :=
      if idx = st.entry.fields.length then st.entry.fields ++ [field]
      else st.entry.fields.set idx field
    .ok (EntryMutState.updated now { st with entry := { st.entry with fields := fields } })

end V03

namespace V02

/-- Constant `VERSION_STR` of `src/version/v0_2.rs`. -/
def VERSION_STR : String := "v0.2"

/-- Enum `Value` of `src/version/v0_2.rs`. -/
inductive Value where
  | Basic (s : String)
  | Protected (bs : Bytes)
deriving DecidableEq, Repr

/-- Struct `Field` of `src/version/v0_2.rs`. -/
structure Field where
  name : String
  value : Value
deriving DecidableEq, Repr

/-- Struct `Entry` of `src/version/v0_2.rs`. -/
structure Entry where
  name : String
  tags : List String
  fields : List Field
  first_added : Nat
  last_update : Nat
deriving DecidableEq, Repr

/-- Struct `FileContent` of `src/version/v0_2.rs`: no password-hash salt. -/
structure FileContent where
  version : String
  token : Bytes
  iv : Bytes
  last_update : Nat
  inner : List Entry
deriving DecidableEq, Repr

/-- Function `encrypt` of `src/version/v0_2.rs` (lines 46–49): plain
AES-256-CBC-PKCS7, no value salting. -/
def encrypt (E : Bytes → Bytes → Bytes) (val iv key : Bytes) : Bytes :=
  encrypt_vec (E key) iv val

/-- Function `decrypt` of `src/version/v0_2.rs` (lines 51–54): plain
AES-256-CBC-PKCS7; no salt stripping, hence no panic path. -/
def decrypt (D : Bytes → Bytes → Bytes) (val iv key : Bytes) : Option Bytes :=
  decrypt_vec (D key) iv val

/-- Function `decrypt_string` of `src/version/v0_2.rs` (lines 56–59). -/
def decrypt_string (D : Bytes → Bytes → Bytes) (val iv key : Bytes) :
    Except DecryptError String :=
  match decrypt D val iv key with
  | none => .error .BadCrypt
  | some bs =>
    match bytesToString? bs with
    | none => .error .BadUtf8
    | some s => .ok s

/-- Method `FileContent::set_key` of `src/version/v0_2.rs` (lines 151–167).
The unsalted SHA-256 hash `hash_key(key)` is the external-crate parameter
`kdf2`. -/
def set_key (kdf2 : String → Bytes) (D : Bytes → Bytes → Bytes)
    (st : Keyed FileContent) (key : String) : Keyed FileContent × Except DecryptError Unit :=
  let hashed := kdf2 key
  match decrypt D st.content.token st.content.iv hashed with
  | some bs =>
    if bs = ENCRYPT_TOKEN then ({ st with key := some hashed }, .ok ())
    else (st, .error .BadCrypt)
  | none => (st, .error .BadCrypt)

/-- Method `FileContent::num_entries` of `src/version/v0_2.rs`. -/
def num_entries (st : Keyed FileContent) : Nat := st.content.inner.length

/-- Method `FileContent::add_empty_entry` of `src/version/v0_2.rs`
(lines 207–221). -/
def add_empty_entry (st : Keyed FileContent) (name : String) (now : Nat) :
    Keyed FileContent × Nat :=
  let idx := num_entries st
  ({ st with
      content := { st.content with
        inner := st.content.inner ++
          [{ name := name, tags := [], fields := [], first_added := now, last_update := now }],
        last_update := now },
      unsaved := true }, idx)

/-- Borrowed state of v0_2's `EntryMut` (v0_2.rs lines 241–246). -/
structure EntryMutState where
  entry : Entry
  global_update : Nat
  unsaved : Bool
deriving DecidableEq, Repr

/-- Method `EntryMut::updated` of `src/version/v0_2.rs` (lines 284–292). -/
def EntryMutState.updated (now : Nat) (st : EntryMutState) : EntryMutState :=
  { st with
      entry := { st.entry with last_update := now },
      global_update := now,
      unsaved := true }

/-- Method `EntryMut::set_field` of `src/version/v0_2.rs` (lines 323–355):
the same `(is_protected, key)` match as v0_3's (storing `Value::Basic` for
`is_protected == true`), with v0_2's unsalted `encrypt`. -/
def set_field (E : Bytes → Bytes → Bytes) (iv : Bytes) (key : Option Bytes)
    (idx : Nat) (name : String) (value : String) (is_protected : Bool) (now : Nat)
    (st : EntryMutState) : Except SetFieldError EntryMutState :=
  let value? : Except SetFieldError Value :=
    match is_protected, key with
    | true, _ => .ok (.Basic value)
    | false, some k => .ok (.Protected (encrypt E (strBytes value) iv k))
    | false, none => .error (.ContentsNotUnlocked .Protected)
  match value? with
  | .error e => .error e
  | .ok v =>
    let field : Field := { name := name, value := v }
    let fields :=
      if idx = st.entry.fields.length then st.entry.fields ++ [field]
      else st.entry.fields.set idx field
    .ok (EntryMutState.updated now { st with entry := { st.entry with fields := fields } })

end V02

/-- Struct `PlaintextField` as used by `Keyed::from_plaintext`/`to_plaintext`
in `src/version/latest.rs` (the struct itself lives in the version module
root, outside `src/`): a field name, the plaintext value, and whether it is
stored encrypted.  Rust's `protected` is a Lean keyword, so the flag is
rendered `is_protected`. -/
structure PlaintextField where
  name : String
  value : String
  is_protected : Bool
deriving DecidableEq, Repr

/-- Struct `PlaintextEntry` of the version module root. -/
structure PlaintextEntry where
  name : String
  tags : List String
  fields : List PlaintextField
  first_added : Nat
  last_update : Nat
deriving DecidableEq, Repr

/-- Struct `PlaintextContent` of the version module root. -/
structure PlaintextContent where
  last_update : Nat
  entries : List PlaintextEntry
deriving DecidableEq, Repr

/-- Index-passing map, used to address the per-field thread-rng draws of
`from_plaintext` by position. -/
def mapWithIdx (f : Nat → α → β) : Nat → List α → List β
  | _, [] => []
  | i, x :: xs => f i x :: mapWithIdx f (i + 1) xs

/-- Function `Keyed::from_plaintext` of `src/version/latest.rs` (lines
21–65): generate a fresh password salt and IV (passed in here as `pwd_salt`
and `iv`, the `OsRng`/`thread_rng` draws), derive the key, freshly encrypt
the token, and encrypt every protected field value under the new key and IV.
The thread-rng salt draw of the `encrypt` call for the field at entry `i`,
field `j` is `(field_salt i j, field_len i j)`; the token's draw is
`(tok_salt, tok_len)`.  The result is wrapped with `Keyed::new` (no key
set). -/
def from_plaintext (E : Bytes → Bytes → Bytes) (kdf : String → String → Bytes)
    (pwd : String) (content : PlaintextContent)
    (pwd_salt : String) (iv : Bytes)
    (tok_salt : Bytes) (tok_len : Nat)
    (field_salt : Nat → Nat → Bytes) (field_len : Nat → Nat → Nat) :
    Keyed V04.FileContent :=
  let hashed_key := kdf pwd_salt pwd
  let token := Passman.encrypt E ENCRYPT_TOKEN iv hashed_key tok_salt tok_len
  Keyed.new
    { version := V04.VERSION_STR
      token := token
      iv := iv
      salt := pwd_salt
      last_update := content.last_update
      inner := mapWithIdx (fun i e =>
        { name := e.name
          tags := e.tags
          fields := mapWithIdx (fun j f =>
            { name := f.name
              value := if f.is_protected then
                  V04.Value.Protected
                    (Passman.encrypt E (strBytes f.value) iv hashed_key
                      (field_salt i j) (field_len i j))
                else V04.Value.Basic f.value } : Nat → PlaintextField → V04.Field) 0 e.fields
          first_added := e.first_added
          last_update := e.last_update } : Nat → PlaintextEntry → V04.Entry) 0 content.entries }

/-- Per-field step of `FileContent::to_current` of `src/version/v0_2.rs`
(lines 116–129): decrypt protected values to plaintext. -/
def V02.to_plaintext_field (D : Bytes → Bytes → Bytes) (iv key : Bytes) (f : V02.Field) :
    Except DecryptError PlaintextField :=
  match f.value with
  | .Basic s => .ok { name := f.name, value := s, is_protected := false }
  | .Protected bs =>
    (V02.decrypt_string D bs iv key).map
      (fun s => { name := f.name, value := s, is_protected := true })

/-- Per-entry step of v0_2's `to_current` (lines 109–134). -/
def V02.to_plaintext_entry (D : Bytes → Bytes → Bytes) (iv key : Bytes) (e : V02.Entry) :
    Except DecryptError PlaintextEntry :=
  (e.fields.mapM (V02.to_plaintext_field D iv key)).map
    (fun fields => ⟨e.name, e.tags, fields, e.first_added, e.last_update⟩)

/-- Unlock step of v0_2's `to_current` (lines 98–102): `set_key` unless a key
is already present; `self.key.as_ref().unwrap()` cannot fail afterwards. -/
def V02.unlock (kdf2 : String → Bytes) (D : Bytes → Bytes → Bytes)
    (st : Keyed V02.FileContent) (pwd : String) : Except DecryptError (Keyed V02.FileContent) :=
  if st.key.isSome then .ok st
  else
    match V02.set_key kdf2 D st pwd with
    | (st2, .ok _) => .ok st2
    | (_, .error e) => .error e

/-- Method `FileContent::to_current` of `src/version/v0_2.rs` (lines 94–144):
unlock with the password unless already unlocked, decrypt every protected
field into a `PlaintextContent` (errors propagate as with Rust's `?`), and
hand it to the current format's `from_plaintext` (which re-encrypts
everything under the freshly generated `pwd_salt`/`iv`).  `kdf2`/`D` serve
v0.2's SHA-256/AES decryption; `E`/`kdf` serve the new format's
encryption. -/
def V02.to_current (kdf2 : String → Bytes) (D E : Bytes → Bytes → Bytes)
    (kdf : String → String → Bytes) (st : Keyed V02.FileContent) (pwd : String)
    (pwd_salt : String) (new_iv : Bytes)
    (tok_salt : Bytes) (tok_len : Nat)
    (field_salt : Nat → Nat → Bytes) (field_len : Nat → Nat → Nat) :
    Except DecryptError (Keyed V04.FileContent) :=
  match V02.unlock kdf2 D st pwd with
  | .error e => .error e
  | .ok st1 =>
    match st1.content.inner.mapM (V02.to_plaintext_entry D st1.content.iv (st1.key.getD [])) with
    | .error e => .error e
    | .ok entries =>
      .ok (from_plaintext E kdf pwd { last_update := st1.content.last_update, entries := entries }
        pwd_salt new_iv tok_salt tok_len field_salt field_len)

/-- Identity "block cipher" used to instantiate the abstract AES-256 parameter
in concrete witnesses: it satisfies the block-cipher interface assumptions
(length preservation and invertibility) trivially. -/
def idCipher : Bytes → Bytes → Bytes := fun _ b => b

/-- Constant-zero key-derivation stand-in for Argon2id in concrete witnesses
(the kdf is an arbitrary external function parameter). -/
def kdf0 : String → String → Bytes := fun _ _ => []

/-- Constant-zero key-derivation stand-in for v0.2's SHA-256 in witnesses. -/
def kdf2of : String → Bytes := fun _ => []

/-- All-zero 16-byte IV for witnesses. -/
def iv0 : Bytes := List.replicate 16 0

/-- Concrete token ciphertext: the salted encryption of `ENCRYPT_TOKEN` under
the identity cipher, a 17-byte zero salt and the zero IV. -/
def tok0 : Bytes := encrypt_with_salt idCipher ENCRYPT_TOKEN (List.replicate 17 0) iv0 []

/-- Concrete protected-field ciphertext for the migration counterexample. -/
def cp3 : Bytes := encrypt_with_salt idCipher (strBytes "s3cret") (List.replicate 18 5) iv0 []

/-- Concrete v0.4 store whose token decrypts correctly under `kdf0`/`idCipher`. -/
def store4 : Keyed V04.FileContent :=
  ⟨⟨V04.VERSION_STR, tok0, iv0, "somesalt", 10, []⟩, none, false⟩

/-- Concrete v0.3 store with one protected field, for the migration claim. -/
def store3 : Keyed V03.FileContent :=
  ⟨⟨V03.VERSION_STR, tok0, iv0, "somesalt", 10,
    [⟨"e", ["t"], [⟨"pin", V03.Value.Protected cp3⟩], 1, 2⟩]⟩, none, false⟩

/-- Concrete v0.2 store whose token decrypts correctly (v0.2's unsalted
encryption) with one protected field. -/
def store2 : Keyed V02.FileContent :=
  ⟨⟨V02.VERSION_STR, V02.encrypt idCipher ENCRYPT_TOKEN iv0 [], iv0, 10,
    [⟨"e", [], [⟨"pin", V02.Value.Protected (V02.encrypt idCipher (strBytes "1234") iv0 [])⟩],
      1, 2⟩]⟩, none, false⟩

/-- Concrete v0.3 entry-mutation state for the `set_field` evaluation. -/
def entrySt3 : V03.EntryMutState := ⟨⟨"e", [], [], 1, 2⟩, 3, false⟩

/-- Concrete v0.2 entry-mutation state for the `set_field` evaluation. -/
def entrySt2 : V02.EntryMutState := ⟨⟨"e", [], [], 1, 2⟩, 3, false⟩

/-- Concrete v0.4 entry-mutation state for the `set_field` evaluation. -/
def entrySt4 : V04.EntryMutState := ⟨⟨"e", [], [], 1, 2⟩, 3, false⟩

/-- Concrete TOTP code oracle for the C9 witness: code `123456` for the
secret `topsecret` at time slice 1, invalid otherwise. -/
def gc0 : String → Nat → Option String :=
  fun s t => if s = "topsecret" ∧ t = 1 then some "123456" else none

/-- Concrete v0.4 field-mutation state holding a Basic field. -/
def fieldSt4 : V04.FieldMutState := ⟨⟨"f", .Basic "x"⟩, 2, 3, false⟩

/-- Concrete encrypted TOTP secret (the salted encryption of `topsecret`). -/
def secretCt : Bytes := encrypt_with_salt idCipher (strBytes "topsecret") (List.replicate 17 4) iv0 []

/-- Constant field-salt oracle for migration witnesses. -/
def fs0 : Nat → Nat → Bytes := fun _ _ => List.replicate 17 0

/-- Constant field-salt-length oracle for migration witnesses. -/
def fl0 : Nat → Nat → Nat := fun _ _ => 17

/-- Plaintext content recovered from `store2` by v0.2's `to_current`. -/
def pt2 : PlaintextContent := ⟨10, [⟨"e", [], [⟨"pin", "1234", true⟩], 1, 2⟩]⟩

/-- Expected current-format output of migrating `store2`. -/
def out2 : Keyed V04.FileContent :=
  from_plaintext idCipher kdf0 "pw" pt2 "newsalt" iv0 (List.replicate 17 0) 17 fs0 fl0

end Passman

namespace Passman

theorem xorBytes_length (a b : Bytes) : (xorBytes a b).length = min a.length b.length := by
  simp [xorBytes]

theorem xorBytes_cancel_right (a p : Bytes) (h : a.length = p.length) :
    xorBytes (xorBytes a p) p = a := by
  induction a generalizing p with
  | nil => simp [xorBytes]
  | cons x xs ih =>
    cases p with
    | nil => simp at h
    | cons y ys =>
      simp only [xorBytes, List.zipWith_cons_cons, List.cons.injEq]
      exact ⟨Nat.xor_cancel_right y x, ih ys (by simpa using h)⟩

theorem pkcs7Pad_length_mod (l : Bytes) : (pkcs7Pad l).length % 16 = 0 := by
  simp only [pkcs7Pad, List.length_append, List.length_replicate]
  omega

theorem pkcs7Unpad_pkcs7Pad (l : Bytes) : pkcs7Unpad (pkcs7Pad l) = some l := by
  have hmod : l.length % 16 < 16 := Nat.mod_lt _ (by norm_num)
  set k := 16 - l.length % 16 with hk
  have hk1 : 1 ≤ k := by omega
  have hk16 : k ≤ 16 := by omega
  have hne : List.replicate k k ≠ [] := by
    simp [List.replicate, ← List.length_pos]
    omega
  have hlast : (pkcs7Pad l).getLast? = some k := by
    rw [pkcs7Pad, ← hk, List.getLast?_append_of_ne_nil _ hne]
    cases hkk : k with
    | zero => omega
    | succ m => exact List.getLast?_replicate (m + 1) (m + 1)
  have hlen : (pkcs7Pad l).length = l.length + k := by
    simp [pkcs7Pad, ← hk]
  simp only [pkcs7Unpad, hlast]
  have hsub : (pkcs7Pad l).length - k = l.length := by omega
  rw [if_neg (by omega), hsub]
  rw [pkcs7Pad, ← hk]
  have hdrop : (l ++ List.replicate k k).drop l.length = List.replicate k k :=
    List.drop_left l _
  have htake : (l ++ List.replicate k k).take l.length = l := List.take_left l _
  rw [hdrop, htake]
  rw [if_pos (by simp [List.all_eq_true])]

theorem toBlocksGo_flatten (fuel : Nat) (l : Bytes) (h : l.length ≤ fuel) :
    (toBlocksGo fuel l).flatten = l := by
  induction fuel generalizing l with
  | zero =>
    cases l with
    | nil => simp [toBlocksGo]
    | cons x xs => simp at h
  | succ n ih =>
    cases l with
    | nil => simp [toBlocksGo]
    | cons x xs =>
      simp only [toBlocksGo, List.flatten_cons]
      rw [ih _ (by simp at h ⊢; omega)]
      exact List.take_append_drop 16 (x :: xs)

theorem flatten_toBlocks (l : Bytes) : (toBlocks l).flatten = l :=
  toBlocksGo_flatten l.length l le_rfl

theorem toBlocksGo_length16 (fuel : Nat) (l : Bytes) (hf : l.length ≤ fuel) :
    l.length % 16 = 0 → ∀ b ∈ toBlocksGo fuel l, b.length = 16 := by
  induction fuel generalizing l with
  | zero =>
    cases l with
    | nil => simp [toBlocksGo]
    | cons x xs => simp at hf
  | succ n ih =>
    cases l with
    | nil => simp [toBlocksGo]
    | cons x xs =>
      intro h
      have h16 : 16 ≤ (x :: xs).length := by
        simp at h ⊢
        omega
      simp only [toBlocksGo, List.mem_cons]
      rintro b (rfl | hb)
      · simp at h16 ⊢
        omega
      · refine ih _ (by simp at hf ⊢; omega) (by simp at h16 h ⊢; omega) b hb

theorem toBlocks_length16 (l : Bytes) : l.length % 16 = 0 → ∀ b ∈ toBlocks l, b.length = 16 :=
  toBlocksGo_length16 l.length l le_rfl

theorem toBlocksGo_flatten_blocks (bs : List Bytes) (h : ∀ b ∈ bs, b.length = 16) :
    ∀ fuel, bs.flatten.length ≤ fuel → toBlocksGo fuel bs.flatten = bs := by
  induction bs with
  | nil => intro fuel _; cases fuel <;> simp [toBlocksGo]
  | cons b rest ih =>
    intro fuel hfuel
    have hb : b.length = 16 := h b (by simp)
    obtain ⟨y, ys, rfl⟩ : ∃ y ys, b = y :: ys := by
      cases b with
      | nil => simp at hb
      | cons y ys => exact ⟨y, ys, rfl⟩
    have hflat : ((y :: ys) :: rest).flatten = y :: (ys ++ rest.flatten) := by simp
    rw [hflat] at hfuel ⊢
    obtain ⟨m, rfl⟩ : ∃ m, fuel = m + 1 := by
      cases fuel with
      | zero => simp at hfuel
      | succ m => exact ⟨m, rfl⟩
    simp only [toBlocksGo]
    have hcons : y :: (ys ++ rest.flatten) = (y :: ys) ++ rest.flatten := by simp
    rw [hcons]
    congr 1
    · rw [← hb]
      exact List.take_left _ _
    · rw [← hb, List.drop_left _ _]
      refine ih (fun x hx => h x (by simp [hx])) m ?_
      simp at hfuel ⊢
      omega

theorem toBlocks_flatten (bs : List Bytes) (h : ∀ b ∈ bs, b.length = 16) :
    toBlocks bs.flatten = bs :=
  toBlocksGo_flatten_blocks bs h _ le_rfl

theorem cbcEncBlocks_length16 (E : Bytes → Bytes) (hE : ∀ b, b.length = 16 → (E b).length = 16) :
    ∀ (bs : List Bytes) (prev : Bytes), prev.length = 16 → (∀ b ∈ bs, b.length = 16) →
      ∀ c ∈ cbcEncBlocks E prev bs, c.length = 16 := by
  intro bs
  induction bs with
  | nil => simp [cbcEncBlocks]
  | cons b rest ih =>
    intro prev hprev hall
    have hb : b.length = 16 := hall b (by simp)
    have hc : (E (xorBytes b prev)).length = 16 :=
      hE _ (by rw [xorBytes_length, hb, hprev]; simp)
    simp only [cbcEncBlocks, List.mem_cons]
    rintro c (rfl | hc2)
    · exact hc
    · exact ih _ hc (fun x hx => hall x (by simp [hx])) c hc2

theorem cbcDecBlocks_cbcEncBlocks (E D : Bytes → Bytes)
    (hE : ∀ b, b.length = 16 → (E b).length = 16)
    (hDE : ∀ b, b.length = 16 → D (E b) = b) :
    ∀ (bs : List Bytes) (prev : Bytes), prev.length = 16 → (∀ b ∈ bs, b.length = 16) →
      cbcDecBlocks D prev (cbcEncBlocks E prev bs) = bs := by
  intro bs
  induction bs with
  | nil => simp [cbcEncBlocks, cbcDecBlocks]
  | cons b rest ih =>
    intro prev hprev hall
    have hb : b.length = 16 := hall b (by simp)
    have hxlen : (xorBytes b prev).length = 16 := by rw [xorBytes_length, hb, hprev]; simp
    have hclen : (E (xorBytes b prev)).length = 16 := hE _ hxlen
    simp only [cbcEncBlocks, cbcDecBlocks, hDE _ hxlen, List.cons.injEq]
    refine ⟨xorBytes_cancel_right b prev (by omega), ?_⟩
    exact ih _ hclen (fun x hx => hall x (by simp [hx]))

theorem length_flatten_16 (bs : List Bytes) (h : ∀ b ∈ bs, b.length = 16) :
    bs.flatten.length = 16 * bs.length := by
  induction bs with
  | nil => simp
  | cons b rest ih =>
    simp only [List.flatten_cons, List.length_append, List.length_cons,
      h b (by simp), ih (fun x hx => h x (by simp [hx]))]
    ring

theorem decrypt_vec_encrypt_vec (E D : Bytes → Bytes)
    (hE : ∀ b, b.length = 16 → (E b).length = 16)
    (hDE : ∀ b, b.length = 16 → D (E b) = b)
    (iv data : Bytes) (hiv : iv.length = 16) :
    decrypt_vec D iv (encrypt_vec E iv data) = some data := by
  have hblocks := toBlocks_length16 _ (pkcs7Pad_length_mod data)
  have hct := cbcEncBlocks_length16 E hE (toBlocks (pkcs7Pad data)) iv hiv hblocks
  have hlen : (cbcEncBlocks E iv (toBlocks (pkcs7Pad data))).flatten.length % 16 = 0 := by
    rw [length_flatten_16 _ hct]
    omega
  rw [encrypt_vec, decrypt_vec, if_pos hlen,
    toBlocks_flatten _ hct,
    cbcDecBlocks_cbcEncBlocks E D hE hDE _ iv hiv hblocks,
    flatten_toBlocks, pkcs7Unpad_pkcs7Pad]

theorem and_or_low4 (x l : Nat) (hl : l < 16) : ((x &&& 240) ||| l) &&& 15 = l := by
  apply Nat.eq_of_testBit_eq
  intro i
  simp only [Nat.testBit_and, Nat.testBit_or]
  by_cases hi : i < 4
  · have h240 : (240 : Nat).testBit i = false := by interval_cases i <;> decide
    have h15 : (15 : Nat).testBit i = true := by interval_cases i <;> decide
    simp [h240, h15]
  · have hpow : (16 : Nat) ≤ 2 ^ i := by
      calc (16 : Nat) = 2 ^ 4 := by norm_num
      _ ≤ 2 ^ i := Nat.pow_le_pow_right (by norm_num) (by omega)
    have h15 : (15 : Nat).testBit i = false := Nat.testBit_lt_two_pow (by omega)
    have hli : l.testBit i = false := Nat.testBit_lt_two_pow (by omega)
    simp [h15, hli]

theorem and_or_high4 (x l : Nat) (hl : l < 16) :
    ((x &&& 240) ||| l) &&& 240 = x &&& 240 := by
  apply Nat.eq_of_testBit_eq
  intro i
  simp only [Nat.testBit_and, Nat.testBit_or]
  by_cases hi : i < 4
  · have h240 : (240 : Nat).testBit i = false := by interval_cases i <;> decide
    simp [h240]
  · have hpow : (16 : Nat) ≤ 2 ^ i := by
      calc (16 : Nat) = 2 ^ 4 := by norm_num
      _ ≤ 2 ^ i := Nat.pow_le_pow_right (by norm_num) (by omega)
    have hli : l.testBit i = false := Nat.testBit_lt_two_pow (by omega)
    rw [hli]
    cases x.testBit i <;> cases (240 : Nat).testBit i <;> rfl

/-- Salt-length byte written by `encodeSaltLen`, as recovered by `decrypt`. -/
theorem encodeSaltLen_head (b : Nat) (rest : Bytes)
    (h17 : 17 ≤ rest.length + 1) (h32 : rest.length + 1 ≤ 32) :
    ∃ b0, encodeSaltLen (b :: rest) = b0 :: rest ∧
      (b0 &&& 15) + SALT_MIN_LENGTH = rest.length + 1 ∧
      b0 &&& 240 = b &&& 240 := by
  refine ⟨(b &&& 240) ||| (rest.length + 1 - SALT_MIN_LENGTH), rfl, ?_, ?_⟩
  · rw [show (240 : Nat) = 0xF0 from rfl, and_or_low4 _ _ (by simp [SALT_MIN_LENGTH]; omega)]
    simp [SALT_MIN_LENGTH]
    omega
  · exact and_or_high4 _ _ (by simp [SALT_MIN_LENGTH]; omega)

/-- C1: Salted-codec round trip.  For every plaintext byte string `v`
(including the empty string), every salt of length between 17 and 32 bytes,
every 16-byte IV and every key whose AES-256 block maps `E key` / `D key` are
mutually inverse length-preserving maps on 16-byte blocks (as AES-256 is for
every 32-byte key), decrypting the salted encryption of `v` with the same IV
and key recovers exactly `v`: `decrypt (encrypt_with_salt v salt iv key) iv
key = Some v` (`DecryptResult.ok` embeds Rust's `Some`). -/
theorem salted_codec_roundtrip
    (E D : Bytes → Bytes → Bytes) (key : Bytes)
    (hE : ∀ b, b.length = 16 → (E key b).length = 16)
    (hDE : ∀ b, b.length = 16 → D key (E key b) = b)
    (v salt iv : Bytes)
    (h17 : SALT_MIN_LENGTH ≤ salt.length) (h32 : salt.length ≤ SALT_MAX_LENGTH)
    (hiv : iv.length = 16) :
    decrypt D (encrypt_with_salt E v salt iv key) iv key = .ok v := by
  obtain ⟨b, rest, rfl⟩ : ∃ b rest, salt = b :: rest := by
    cases salt with
    | nil => simp [SALT_MIN_LENGTH] at h17
    | cons b r => exact ⟨b, r, rfl⟩
  simp only [SALT_MIN_LENGTH, SALT_MAX_LENGTH, List.length_cons] at h17 h32
  obtain ⟨b0, henc, hlow, hhigh⟩ := encodeSaltLen_head b rest h17 h32
  have hvec : decrypt_vec (D key) iv (encrypt_vec (E key) iv (encodeSaltLen (b :: rest) ++ v)) =
      some (encodeSaltLen (b :: rest) ++ v) :=
    decrypt_vec_encrypt_vec _ _ hE hDE iv _ hiv
  rw [decrypt, encrypt_with_salt, hvec, henc, List.cons_append]
  simp only [hlow]
  rw [if_neg (by simp [SALT_MIN_LENGTH, SALT_MAX_LENGTH]; omega)]
  rw [if_neg (by simp)]
  rw [List.drop_succ_cons, List.drop_left rest v]

/-- Witness for C1 at a concrete input (identity block cipher, zero IV,
17-byte salt, 3-byte plaintext). -/
theorem salted_codec_roundtrip_witness :
    decrypt idCipher
      (encrypt_with_salt idCipher [7, 8, 9] (List.replicate 17 3) (List.replicate 16 0) [])
      (List.replicate 16 0) [] = .ok [7, 8, 9] :=
  salted_codec_roundtrip idCipher idCipher []
    (fun _ hb => hb) (fun _ _ => rfl) [7, 8, 9] (List.replicate 17 3) (List.replicate 16 0)
    (by decide) (by decide) (by decide)

/-- C4: Salt-length encoding scheme.  For a plaintext of length `n` the
minimum salt length is `max 17 (32 - n)`; any salt length drawn from
`[min_salt_len_of n, 32]` (the range passed to `gen_range`) satisfies
`salt_len + n ≥ 32`; the chosen length minus 17 is written into the low 4
bits of the salt's first byte while the high 4 bits keep their value, and
`(first_byte &&& 0x0F) + 17` recovers the length. -/
theorem salt_length_scheme
    (E : Bytes → Bytes → Bytes) (v iv key : Bytes) (max_len_salt : Bytes) (salt_len : Nat)
    (hrng_lo : min_salt_len_of v.length ≤ salt_len)
    (hrng_hi : salt_len ≤ SALT_MAX_LENGTH)
    (hms : max_len_salt.length = SALT_MAX_LENGTH) :
    min_salt_len_of v.length = max 17 (32 - v.length) ∧
    17 ≤ salt_len ∧
    32 ≤ salt_len + v.length ∧
    (max_len_salt.take salt_len).length = salt_len ∧
    (∃ b0 rest,
        encodeSaltLen (max_len_salt.take salt_len) = b0 :: rest ∧
        b0 &&& 0x0F = salt_len - 17 ∧
        (b0 &&& 0x0F) + 17 = salt_len ∧
        b0 &&& 0xF0 = (max_len_salt.take salt_len).headD 0 &&& 0xF0) ∧
    encrypt E v iv key max_len_salt salt_len =
      encrypt_with_salt E v (max_len_salt.take salt_len) iv key := by
  simp only [min_salt_len_of, SALT_MIN_LENGTH, SALT_MAX_LENGTH] at hrng_lo hrng_hi hms ⊢
  have h17 : 17 ≤ salt_len := le_trans (le_max_right _ _) hrng_lo
  have h32n : 32 - v.length ≤ salt_len := le_trans (le_max_left _ _) hrng_lo
  have htklen : (max_len_salt.take salt_len).length = salt_len := by
    simp
    omega
  refine ⟨by omega, h17, by omega, htklen, ?_, rfl⟩
  obtain ⟨c, rest, hcons⟩ : ∃ c rest, max_len_salt.take salt_len = c :: rest := by
    cases htk : max_len_salt.take salt_len with
    | nil => rw [htk] at htklen; simp at htklen; omega
    | cons c rest => exact ⟨c, rest, rfl⟩
  have hrest : rest.length + 1 = salt_len := by
    rw [hcons] at htklen
    simpa using htklen
  refine ⟨(c &&& 240) ||| (rest.length + 1 - 17), rest, ?_, ?_, ?_, ?_⟩
  · rw [hcons]
    simp [encodeSaltLen, SALT_MIN_LENGTH]
  · rw [show (0x0F : Nat) = 15 from rfl, and_or_low4 _ _ (by omega)]
    omega
  · rw [show (0x0F : Nat) = 15 from rfl, and_or_low4 _ _ (by omega)]
    omega
  · rw [hcons]
    simp only [List.headD_cons]
    exact and_or_high4 _ _ (by omega)

/-- Witness for C4 at a concrete input: a 2-byte plaintext, salt length 30
drawn from the admissible range `[max 17 (32-2), 32] = [30, 32]`. -/
theorem salt_length_scheme_witness :
    min_salt_len_of ([5, 6] : Bytes).length = max 17 (32 - ([5, 6] : Bytes).length) ∧
    17 ≤ 30 ∧
    32 ≤ 30 + ([5, 6] : Bytes).length ∧
    ((List.replicate 32 200).take 30).length = 30 ∧
    (∃ b0 rest,
        encodeSaltLen ((List.replicate 32 200).take 30) = b0 :: rest ∧
        b0 &&& 0x0F = 30 - 17 ∧
        (b0 &&& 0x0F) + 17 = 30 ∧
        b0 &&& 0xF0 = ((List.replicate 32 200).take 30).headD 0 &&& 0xF0) ∧
    encrypt idCipher [5, 6] (List.replicate 16 0) [] (List.replicate 32 200) 30 =
      encrypt_with_salt idCipher [5, 6] ((List.replicate 32 200).take 30)
        (List.replicate 16 0) [] := by
  have h := salt_length_scheme idCipher [5, 6] (List.replicate 16 0) [] (List.replicate 32 200) 30
    (by decide) (by decide) (by decide)
  simpa using h

/-- C5: the claim says the salted `decrypt` never panics, treating an empty
decrypted payload or a payload shorter than the encoded salt length as a
decryption failure.  The code panics in both situations: `decrypted[0]`
panics on an empty payload and `decrypted.drain(..salt_len)` panics when
`salt_len` exceeds the payload length.  Evaluated here at two concrete
ciphertexts under the identity block cipher and zero IV: sixteen `0x0F`
bytes decrypt to the one-byte payload `[0x0F]`, whose encoded salt length is
32 (a drain panic); sixteen `0x10` bytes decrypt to the empty payload (an
index panic).  The same payloads arise for AES-256 under any key from the
ciphertext `AES-CBC-Enc(key, iv, 0x0F…0F / 0x10…10)`. -/
theorem decrypt_panics_on_short_payload :
    decrypt idCipher (List.replicate 16 15) (List.replicate 16 0) [] = .panics ∧
    decrypt idCipher (List.replicate 16 16) (List.replicate 16 0) [] = .panics := by
  constructor <;> rfl

theorem v04_set_key_ok_iff (kdf : String → String → Bytes) (D : Bytes → Bytes → Bytes)
    (st : Keyed V04.FileContent) (pwd : String) :
    (V04.set_key kdf D st pwd).2 = .ok ↔
      Passman.decrypt D st.content.token st.content.iv (kdf st.content.salt pwd) =
        .ok ENCRYPT_TOKEN := by
  unfold V04.set_key
  cases hd : Passman.decrypt D st.content.token st.content.iv (kdf st.content.salt pwd) with
  | panics => simp [hd]
  | fails => simp [hd]
  | ok bs =>
    by_cases hb : bs = ENCRYPT_TOKEN <;> simp [hd, hb]

theorem v04_set_key_ok_state (kdf : String → String → Bytes) (D : Bytes → Bytes → Bytes)
    (st : Keyed V04.FileContent) (pwd : String)
    (h : (V04.set_key kdf D st pwd).2 = .ok) :
    (V04.set_key kdf D st pwd).1 = { st with key := some (kdf st.content.salt pwd) } := by
  unfold V04.set_key at h ⊢
  cases hd : Passman.decrypt D st.content.token st.content.iv (kdf st.content.salt pwd) with
  | panics => simp [hd] at h
  | fails => simp [hd] at h
  | ok bs =>
    by_cases hb : bs = ENCRYPT_TOKEN
    · simp [hd, hb]
    · simp [hd, hb] at h

theorem v04_set_key_not_ok_state (kdf : String → String → Bytes) (D : Bytes → Bytes → Bytes)
    (st : Keyed V04.FileContent) (pwd : String)
    (h : (V04.set_key kdf D st pwd).2 ≠ .ok) :
    (V04.set_key kdf D st pwd).1 = st := by
  unfold V04.set_key at h ⊢
  cases hd : Passman.decrypt D st.content.token st.content.iv (kdf st.content.salt pwd) with
  | panics => simp [hd]
  | fails => simp [hd]
  | ok bs =>
    by_cases hb : bs = ENCRYPT_TOKEN
    · simp [hd, hb] at h
    · simp [hd, hb]

theorem v04_set_key_err_badcrypt (kdf : String → String → Bytes) (D : Bytes → Bytes → Bytes)
    (st : Keyed V04.FileContent) (pwd : String) (e : DecryptError)
    (h : (V04.set_key kdf D st pwd).2 = .err e) : e = .BadCrypt := by
  unfold V04.set_key at h
  cases hd : Passman.decrypt D st.content.token st.content.iv (kdf st.content.salt pwd) with
  | panics => simp [hd] at h
  | fails =>
    simp [hd] at h
    exact h.symm
  | ok bs =>
    by_cases hb : bs = ENCRYPT_TOKEN
    · simp [hd, hb] at h
    · simp [hd, hb] at h
      exact h.symm

theorem v02_set_key_ok_iff (kdf2 : String → Bytes) (D : Bytes → Bytes → Bytes)
    (st : Keyed V02.FileContent) (pwd : String) :
    (V02.set_key kdf2 D st pwd).2 = .ok () ↔
      V02.decrypt D st.content.token st.content.iv (kdf2 pwd) = some ENCRYPT_TOKEN := by
  unfold V02.set_key
  cases hd : V02.decrypt D st.content.token st.content.iv (kdf2 pwd) with
  | none => simp [hd]
  | some bs =>
    by_cases hb : bs = ENCRYPT_TOKEN <;> simp [hd, hb]

theorem v02_set_key_ok_state (kdf2 : String → Bytes) (D : Bytes → Bytes → Bytes)
    (st : Keyed V02.FileContent) (pwd : String)
    (h : (V02.set_key kdf2 D st pwd).2 = .ok ()) :
    (V02.set_key kdf2 D st pwd).1 = { st with key := some (kdf2 pwd) } := by
  unfold V02.set_key at h ⊢
  cases hd : V02.decrypt D st.content.token st.content.iv (kdf2 pwd) with
  | none => simp [hd] at h
  | some bs =>
    by_cases hb : bs = ENCRYPT_TOKEN
    · simp [hd, hb]
    · simp [hd, hb] at h

theorem v02_set_key_err_state (kdf2 : String → Bytes) (D : Bytes → Bytes → Bytes)
    (st : Keyed V02.FileContent) (pwd : String) (e : DecryptError)
    (h : (V02.set_key kdf2 D st pwd).2 = .error e) :
    e = .BadCrypt ∧ (V02.set_key kdf2 D st pwd).1 = st := by
  unfold V02.set_key at h ⊢
  cases hd : V02.decrypt D st.content.token st.content.iv (kdf2 pwd) with
  | none =>
    simp [hd] at h
    simp [hd, h.symm]
  | some bs =>
    by_cases hb : bs = ENCRYPT_TOKEN
    · simp [hd, hb] at h
    · simp [hd, hb] at h
      simp [hd, hb, h.symm]

/-- C3: the token check of `set_key`.  In both v0.4 (Argon2id) and v0.2
(SHA-256), `set_key` derives the key via the version's KDF, decrypts the
stored token and compares it byte-for-byte against `ENCRYPT_TOKEN`:
`Ok(())` is returned iff they match, and exactly then the container's key is
set to the derived key; on every error return the result is `BadCrypt` and
the container (in particular its key field, set or unset) is unchanged. -/
theorem set_key_token_check :
    (∀ (kdf : String → String → Bytes) (D : Bytes → Bytes → Bytes)
        (st : Keyed V04.FileContent) (pwd : String),
      ((V04.set_key kdf D st pwd).2 = .ok ↔
        Passman.decrypt D st.content.token st.content.iv (kdf st.content.salt pwd) =
          .ok ENCRYPT_TOKEN) ∧
      ((V04.set_key kdf D st pwd).2 = .ok →
        (V04.set_key kdf D st pwd).1 = { st with key := some (kdf st.content.salt pwd) }) ∧
      (∀ e, (V04.set_key kdf D st pwd).2 = .err e →
        e = .BadCrypt ∧ (V04.set_key kdf D st pwd).1 = st)) ∧
    (∀ (kdf2 : String → Bytes) (D : Bytes → Bytes → Bytes)
        (st : Keyed V02.FileContent) (pwd : String),
      ((V02.set_key kdf2 D st pwd).2 = .ok () ↔
        V02.decrypt D st.content.token st.content.iv (kdf2 pwd) = some ENCRYPT_TOKEN) ∧
      ((V02.set_key kdf2 D st pwd).2 = .ok () →
        (V02.set_key kdf2 D st pwd).1 = { st with key := some (kdf2 pwd) }) ∧
      (∀ e, (V02.set_key kdf2 D st pwd).2 = .error e →
        e = .BadCrypt ∧ (V02.set_key kdf2 D st pwd).1 = st)) := by
  constructor
  · intro kdf D st pwd
    refine ⟨v04_set_key_ok_iff kdf D st pwd, v04_set_key_ok_state kdf D st pwd, ?_⟩
    intro e he
    refine ⟨v04_set_key_err_badcrypt kdf D st pwd e he, ?_⟩
    exact v04_set_key_not_ok_state kdf D st pwd (by rw [he]; simp)
  · intro kdf2 D st pwd
    exact ⟨v02_set_key_ok_iff kdf2 D st pwd, v02_set_key_ok_state kdf2 D st pwd,
      fun e he => v02_set_key_err_state kdf2 D st pwd e he⟩

/-- Witness for C3: on the concrete store `store4` the correct password sets
the key to the derived value and returns `Ok`; and on `store2` a mismatching
token decryption yields `BadCrypt` with the store unchanged. -/
theorem set_key_token_check_witness :
    (V04.set_key kdf0 idCipher store4 "pw").2 = .ok ∧
    (V04.set_key kdf0 idCipher store4 "pw").1 = { store4 with key := some [] } ∧
    (V02.set_key kdf2of (fun _ b => b.map (fun x => x + 1)) store2 "pw").2 =
      .error .BadCrypt ∧
    (V02.set_key kdf2of (fun _ b => b.map (fun x => x + 1)) store2 "pw").1 = store2 := by
  have h4 := set_key_token_check.1 kdf0 idCipher store4 "pw"
  have hok : (V04.set_key kdf0 idCipher store4 "pw").2 = .ok := h4.1.mpr (by decide)
  have h2 := set_key_token_check.2 kdf2of (fun _ b => b.map (fun x => x + 1)) store2 "pw"
  have herr : (V02.set_key kdf2of (fun _ b => b.map (fun x => x + 1)) store2 "pw").2 =
      .error .BadCrypt := by rfl
  exact ⟨hok, h4.2.1 hok, herr, (h2.2.2 .BadCrypt herr).2⟩

/-- C2: the claim states that in every format version a Manual builder value
with `protected == true` is stored encrypted as `Protected` (or
`ContentsNotUnlocked` when locked) and `protected == false` is stored as
plaintext `Basic`.  The v0.2 and v0.3 `set_field` implementations invert the
flag: evaluated here, both store `Value::Basic("1234")` — the plaintext —
for `protected == true` on an unlocked store, v0.3 rejects an unprotected
value on a locked store with `ContentsNotUnlocked`, while v0.4's `set_field`
correctly encrypts the `protected == true` value.  (v0.4's own
`plaintext_value` and the spec agree that `Protected` ↔ `protected ==
true`, so the v0.2/v0.3 arms are a slip.) -/
theorem set_field_protected_flag_inverted :
    V03.set_field idCipher iv0 (some []) (List.replicate 17 0) 17 0 "pin" "1234" true 5
      entrySt3 = .ok ⟨⟨"e", [], [⟨"pin", V03.Value.Basic "1234"⟩], 1, 5⟩, 5, true⟩ ∧
    V02.set_field idCipher iv0 (some []) 0 "pin" "1234" true 5 entrySt2 =
      .ok ⟨⟨"e", [], [⟨"pin", V02.Value.Basic "1234"⟩], 1, 5⟩, 5, true⟩ ∧
    V03.set_field idCipher iv0 none (List.replicate 17 0) 17 0 "user" "alice" false 5
      entrySt3 = .error (.ContentsNotUnlocked .Protected) ∧
    V04.set_field idCipher iv0 (some []) (List.replicate 17 0) 17 0 "pin"
      (.Manual "1234" true) 5 entrySt4 =
      .ok ⟨⟨"e", [],
        [⟨"pin", V04.Value.Protected
          (encrypt idCipher (strBytes "1234") iv0 [] (List.replicate 17 0) 17)⟩], 1, 5⟩,
        5, true⟩ := by
  exact ⟨rfl, rfl, rfl, rfl⟩

/-- C7: idempotent migration.  When `to_current` succeeds on an
already-current (v0.4) store, the returned store has the same content
(version string, token, IV, salt, timestamps and entries) and the same
unsaved flag; only the key is newly set to the derived key. -/
theorem to_current_identity_on_v04
    (kdf : String → String → Bytes) (D : Bytes → Bytes → Bytes)
    (st : Keyed V04.FileContent) (pwd : String) (out : Keyed V04.FileContent)
    (h : V04.to_current kdf D st pwd = .ok out) :
    out.content = st.content ∧ out.unsaved = st.unsaved ∧
    out.key = some (kdf st.content.salt pwd) := by
  have hpair : V04.set_key kdf D st pwd = (out, .ok) := by
    unfold V04.to_current at h
    rcases hsk : V04.set_key kdf D st pwd with ⟨st2, r⟩
    rw [hsk] at h
    cases r with
    | ok => simp at h; rw [h]
    | err e => simp at h
    | panics => simp at h
  have h2 : (V04.set_key kdf D st pwd).2 = .ok := by rw [hpair]
  have h1 := v04_set_key_ok_state kdf D st pwd h2
  rw [hpair] at h1
  simp at h1
  rw [h1]
  exact ⟨rfl, rfl, rfl⟩

/-- Witness for C7 at the concrete current-format store `store4`. -/
theorem to_current_identity_on_v04_witness :
    (⟨store4.content, some [], false⟩ : Keyed V04.FileContent).content = store4.content ∧
    (⟨store4.content, some [], false⟩ : Keyed V04.FileContent).unsaved = store4.unsaved ∧
    (⟨store4.content, some [], false⟩ : Keyed V04.FileContent).key =
      some (kdf0 store4.content.salt "pw") :=
  to_current_identity_on_v04 kdf0 idCipher store4 "pw" ⟨store4.content, some [], false⟩
    (by decide)

theorem mapWithIdx_getElem? (f : Nat → α → β) (k : Nat) (l : List α) (i : Nat) :
    (mapWithIdx f k l)[i]? = l[i]?.map (f (k + i)) := by
  induction l generalizing k i with
  | nil => simp [mapWithIdx]
  | cons x xs ih =>
    cases i with
    | zero => simp [mapWithIdx]
    | succ n =>
      simp only [mapWithIdx, List.getElem?_cons_succ, ih]
      have hkn : k + 1 + n = k + (n + 1) := by omega
      rw [hkn]

theorem from_plaintext_field_at (E : Bytes → Bytes → Bytes) (kdf : String → String → Bytes)
    (pwd : String) (content : PlaintextContent) (pwd_salt : String) (iv : Bytes)
    (tok_salt : Bytes) (tok_len : Nat)
    (field_salt : Nat → Nat → Bytes) (field_len : Nat → Nat → Nat)
    (i j : Nat) (f : PlaintextField)
    (hf : content.entries[i]?.bind (fun e => e.fields[j]?) = some f) :
    ((from_plaintext E kdf pwd content pwd_salt iv tok_salt tok_len
        field_salt field_len).content.inner[i]?.bind (fun e => e.fields[j]?)) =
      some ⟨f.name,
        if f.is_protected then
          V04.Value.Protected (Passman.encrypt E (strBytes f.value) iv (kdf pwd_salt pwd)
            (field_salt i j) (field_len i j))
        else V04.Value.Basic f.value⟩ := by
  rcases he : content.entries[i]? with _ | e
  · rw [he] at hf
    simp at hf
  · rw [he] at hf
    simp at hf
    simp only [from_plaintext, Keyed.new]
    rw [mapWithIdx_getElem?, he]
    simp only [Nat.zero_add]
    simp
    rw [mapWithIdx_getElem?, hf]
    simp

theorem v04_to_current_ok_pair (kdf : String → String → Bytes) (D : Bytes → Bytes → Bytes)
    (st : Keyed V04.FileContent) (pwd : String) (out : Keyed V04.FileContent)
    (h : V04.to_current kdf D st pwd = .ok out) :
    V04.set_key kdf D st pwd = (out, .ok) := by
  unfold V04.to_current at h
  rcases hsk : V04.set_key kdf D st pwd with ⟨st2, r⟩
  rw [hsk] at h
  cases r with
  | ok => simp at h; rw [h]
  | err e => simp at h
  | panics => simp at h

/-- C6 counterexample: the claim says migration never copies ciphertext from
the input file into the migrated output.  Migrating the concrete v0.3 store
`store3` with the correct password succeeds and returns a v0.4 store whose
token and protected-field ciphertext are byte-for-byte the input's `tok0`
and `cp3` — the v0.3→v0.4 step (v0_3.rs `to_current`) deliberately copies
token, IV, salt and all `Protected` values instead of re-encrypting. -/
theorem migration_v03_reuses_ciphertext :
    V03.to_current kdf0 idCipher store3 "pw" =
      .ok ⟨store3.content.toV04, some [], false⟩ ∧
    store3.content.toV04.token = store3.content.token ∧
    store3.content.toV04.iv = store3.content.iv ∧
    store3.content.toV04.salt = store3.content.salt ∧
    store3.content.toV04.inner =
      [⟨"e", ["t"], [⟨"pin", V04.Value.Protected cp3⟩], 1, 2⟩] ∧
    store3.content.inner = [⟨"e", ["t"], [⟨"pin", V03.Value.Protected cp3⟩], 1, 2⟩] :=
  ⟨rfl, rfl, rfl, rfl, rfl, rfl⟩

/-- C6 (amended): the v0.2→current migration step re-encrypts: its output is
`from_plaintext` of the decrypted plaintext, whose password salt and IV are
the freshly generated values, whose token is a fresh encryption of the token
constant under the newly derived key, and in which every protected field is
freshly encrypted under the new key and IV.  The v0.3→v0.4 step, by
contrast, re-encrypts nothing: it copies token, IV, password salt,
timestamp, and every entry (Protected ciphertexts included) verbatim, since
v0.3 and v0.4 share the same KDF and salted encoding. -/
theorem migration_recrypt_amended :
    (∀ (kdf : String → String → Bytes) (D : Bytes → Bytes → Bytes)
        (st : Keyed V03.FileContent) (pwd : String) (out : Keyed V04.FileContent),
      V03.to_current kdf D st pwd = .ok out →
        out.content.token = st.content.token ∧
        out.content.iv = st.content.iv ∧
        out.content.salt = st.content.salt ∧
        out.content.last_update = st.content.last_update ∧
        out.content.inner = st.content.inner.map V03.Entry.toV04) ∧
    (∀ (kdf2 : String → Bytes) (D E : Bytes → Bytes → Bytes)
        (kdf : String → String → Bytes) (st : Keyed V02.FileContent) (pwd : String)
        (pwd_salt : String) (new_iv : Bytes) (tok_salt : Bytes) (tok_len : Nat)
        (field_salt : Nat → Nat → Bytes) (field_len : Nat → Nat → Nat)
        (out : Keyed V04.FileContent),
      V02.to_current kdf2 D E kdf st pwd pwd_salt new_iv tok_salt tok_len
        field_salt field_len = .ok out →
      ∃ pt : PlaintextContent,
        out = from_plaintext E kdf pwd pt pwd_salt new_iv tok_salt tok_len
          field_salt field_len ∧
        out.content.salt = pwd_salt ∧
        out.content.iv = new_iv ∧
        out.content.token =
          Passman.encrypt E ENCRYPT_TOKEN new_iv (kdf pwd_salt pwd) tok_salt tok_len ∧
        (∀ (i j : Nat) (f : PlaintextField),
          pt.entries[i]?.bind (fun e => e.fields[j]?) = some f →
          f.is_protected = true →
          out.content.inner[i]?.bind (fun e => e.fields[j]?) =
            some ⟨f.name, V04.Value.Protected
              (Passman.encrypt E (strBytes f.value) new_iv (kdf pwd_salt pwd)
                (field_salt i j) (field_len i j))⟩)) := by
  constructor
  · intro kdf D st pwd out h
    unfold V03.to_current at h
    have hpair := v04_to_current_ok_pair kdf D (Keyed.new st.content.toV04) pwd out h
    have h2 : (V04.set_key kdf D (Keyed.new st.content.toV04) pwd).2 = .ok := by rw [hpair]
    have h1 := v04_set_key_ok_state kdf D (Keyed.new st.content.toV04) pwd h2
    rw [hpair] at h1
    simp at h1
    rw [h1]
    exact ⟨rfl, rfl, rfl, rfl, rfl⟩
  · intro kdf2 D E kdf st pwd pwd_salt new_iv tok_salt tok_len field_salt field_len out h
    unfold V02.to_current at h
    split at h
    · exact absurd h (by simp)
    rename_i st1 hu
    split at h
    · exact absurd h (by simp)
    rename_i entries hm
    simp at h
    have hout : from_plaintext E kdf pwd
        { last_update := st1.content.last_update, entries := entries } pwd_salt new_iv
        tok_salt tok_len field_salt field_len = out := h
    refine ⟨{ last_update := st1.content.last_update, entries := entries },
      hout.symm, ?_, ?_, ?_, ?_⟩
    · rw [← hout]; rfl
    · rw [← hout]; rfl
    · rw [← hout]; rfl
    · intro i j f hf hp
      clear h
      rw [← hout]
      have := from_plaintext_field_at E kdf pwd
        { last_update := st1.content.last_update, entries := entries } pwd_salt new_iv
        tok_salt tok_len field_salt field_len i j f hf
      rw [hp] at this
      simpa using this

/-- Witness for C6 (amended): the v0.3 part applied to the concrete `store3`
(everything copied verbatim), and the v0.2 part applied to the concrete
`store2` with fresh salt `newsalt` and draws `fs0`/`fl0` (output equals
`from_plaintext` of the recovered plaintext `pt2`). -/
theorem migration_recrypt_amended_witness :
    ((⟨store3.content.toV04, some [], false⟩ : Keyed V04.FileContent).content.token =
        store3.content.token ∧
      (⟨store3.content.toV04, some [], false⟩ : Keyed V04.FileContent).content.iv =
        store3.content.iv ∧
      (⟨store3.content.toV04, some [], false⟩ : Keyed V04.FileContent).content.salt =
        store3.content.salt ∧
      (⟨store3.content.toV04, some [], false⟩ : Keyed V04.FileContent).content.last_update =
        store3.content.last_update ∧
      (⟨store3.content.toV04, some [], false⟩ : Keyed V04.FileContent).content.inner =
        store3.content.inner.map V03.Entry.toV04) ∧
    (∃ pt : PlaintextContent,
      out2 = from_plaintext idCipher kdf0 "pw" pt "newsalt" iv0 (List.replicate 17 0) 17
        fs0 fl0 ∧
      out2.content.salt = "newsalt" ∧
      out2.content.iv = iv0 ∧
      out2.content.token =
        Passman.encrypt idCipher ENCRYPT_TOKEN iv0 (kdf0 "newsalt" "pw")
          (List.replicate 17 0) 17 ∧
      (∀ (i j : Nat) (f : PlaintextField),
        pt.entries[i]?.bind (fun e => e.fields[j]?) = some f →
        f.is_protected = true →
        out2.content.inner[i]?.bind (fun e => e.fields[j]?) =
          some ⟨f.name, V04.Value.Protected
            (Passman.encrypt idCipher (strBytes f.value) iv0 (kdf0 "newsalt" "pw")
              (fs0 i j) (fl0 i j))⟩)) :=
  ⟨migration_recrypt_amended.1 kdf0 idCipher store3 "pw"
      ⟨store3.content.toV04, some [], false⟩ rfl,
    migration_recrypt_amended.2 kdf2of idCipher idCipher kdf0 store2 "pw" "newsalt" iv0
      (List.replicate 17 0) 17 fs0 fl0 out2 rfl⟩

theorem v04_set_field_ok_updated (E : Bytes → Bytes → Bytes) (iv : Bytes)
    (key : Option Bytes) (sb : Bytes) (sl idx : Nat) (name : String) (pv : PlaintextValue)
    (now : Nat) (st st2 : V04.EntryMutState)
    (h : V04.set_field E iv key sb sl idx name pv now st = .ok st2) :
    st2.entry.last_update = now ∧ st2.global_update = now ∧ st2.unsaved = true := by
  cases pv with
  | Manual value prot =>
    cases prot with
    | false =>
      simp [V04.set_field] at h
      subst h
      exact ⟨rfl, rfl, rfl⟩
    | true =>
      cases key with
      | none => simp [V04.set_field] at h
      | some k =>
        simp [V04.set_field] at h
        subst h
        exact ⟨rfl, rfl, rfl⟩
  | Totp issuer secret =>
    cases key with
    | none => simp [V04.set_field] at h
    | some k =>
      simp [V04.set_field] at h
      subst h
      exact ⟨rfl, rfl, rfl⟩

theorem v04_swap_ok_updated (E D : Bytes → Bytes → Bytes) (iv : Bytes)
    (key : Option Bytes) (sb : Bytes) (sl now : Nat) (st st2 : V04.FieldMutState)
    (h : V04.swap_encryption E D iv key sb sl now st = .ok st2) :
    st2.entry_update = now ∧ st2.global_update = now ∧ st2.unsaved = true := by
  cases key with
  | none => simp [V04.swap_encryption] at h
  | some k =>
    cases hv : st.field.value with
    | Basic s =>
      simp [V04.swap_encryption, hv] at h
      subst h
      exact ⟨rfl, rfl, rfl⟩
    | Protected bs =>
      cases hd : decrypt_string D bs iv k with
      | panics => simp [V04.swap_encryption, hv, hd] at h
      | err e => simp [V04.swap_encryption, hv, hd] at h
      | ok s =>
        simp [V04.swap_encryption, hv, hd] at h
        subst h
        exact ⟨rfl, rfl, rfl⟩
    | Totp issuer secret => simp [V04.swap_encryption, hv] at h

/-- C8: every mutation through `EntryMut` (`set_name`, `set_tags`,
`set_field`, `remove_field`) or `FieldMut` (`swap_encryption`) sets both the
entry's `last_update` (for `FieldMut`: the borrowed `entry_update`) and the
store's `last_update` to the current time `now`, hence to a value `≥ t0`
under a monotone clock (`t0 ≤ now`, where `t0` is the entry's previous
`last_update`), and sets the unsaved flag. -/
theorem mutation_updates_timestamps (t0 now : Nat) (hmono : t0 ≤ now) :
    (∀ (st : V04.EntryMutState) (n : String), st.entry.last_update = t0 →
      t0 ≤ (V04.set_name n now st).entry.last_update ∧
      t0 ≤ (V04.set_name n now st).global_update ∧
      (V04.set_name n now st).unsaved = true) ∧
    (∀ (st : V04.EntryMutState) (tags : List String), st.entry.last_update = t0 →
      t0 ≤ (V04.set_tags tags now st).entry.last_update ∧
      t0 ≤ (V04.set_tags tags now st).global_update ∧
      (V04.set_tags tags now st).unsaved = true) ∧
    (∀ (E : Bytes → Bytes → Bytes) (iv : Bytes) (key : Option Bytes) (sb : Bytes)
        (sl idx : Nat) (name : String) (pv : PlaintextValue) (st st2 : V04.EntryMutState),
      st.entry.last_update = t0 →
      V04.set_field E iv key sb sl idx name pv now st = .ok st2 →
      t0 ≤ st2.entry.last_update ∧ t0 ≤ st2.global_update ∧ st2.unsaved = true) ∧
    (∀ (st : V04.EntryMutState) (idx : Nat), st.entry.last_update = t0 →
      t0 ≤ (V04.remove_field idx now st).entry.last_update ∧
      t0 ≤ (V04.remove_field idx now st).global_update ∧
      (V04.remove_field idx now st).unsaved = true) ∧
    (∀ (E D : Bytes → Bytes → Bytes) (iv : Bytes) (key : Option Bytes) (sb : Bytes)
        (sl : Nat) (st st2 : V04.FieldMutState),
      st.entry_update = t0 →
      V04.swap_encryption E D iv key sb sl now st = .ok st2 →
      t0 ≤ st2.entry_update ∧ t0 ≤ st2.global_update ∧ st2.unsaved = true) := by
  refine ⟨?_, ?_, ?_, ?_, ?_⟩
  · intro st n _
    exact ⟨hmono, hmono, rfl⟩
  · intro st tags _
    exact ⟨hmono, hmono, rfl⟩
  · intro E iv key sb sl idx name pv st st2 _ h
    obtain ⟨h1, h2, h3⟩ := v04_set_field_ok_updated E iv key sb sl idx name pv now st st2 h
    rw [h1, h2]
    exact ⟨hmono, hmono, h3⟩
  · intro st idx _
    exact ⟨hmono, hmono, rfl⟩
  · intro E D iv key sb sl st st2 _ h
    obtain ⟨h1, h2, h3⟩ := v04_swap_ok_updated E D iv key sb sl now st st2 h
    rw [h1, h2]
    exact ⟨hmono, hmono, h3⟩

/-- Witness for C8 at `t0 = 2`, `now = 5` on concrete states: a rename, a
successful `set_field` and a successful `swap_encryption` (Basic value on an
unlocked store). -/
theorem mutation_updates_timestamps_witness :
    (2 ≤ (V04.set_name "n" 5 entrySt4).entry.last_update ∧
      2 ≤ (V04.set_name "n" 5 entrySt4).global_update ∧
      (V04.set_name "n" 5 entrySt4).unsaved = true) ∧
    2 ≤ ((V04.set_field idCipher iv0 (some []) (List.replicate 17 0) 17 0 "f"
        (.Manual "v" false) 5 entrySt4).toOption.getD entrySt4).entry.last_update ∧
    2 ≤ (match V04.swap_encryption idCipher idCipher iv0 (some [])
        (List.replicate 17 0) 17 5 fieldSt4 with
      | .ok st2 => st2
      | _ => fieldSt4).entry_update := by
  have h := mutation_updates_timestamps 2 5 (by decide)
  refine ⟨h.1 entrySt4 "n" rfl, ?_, ?_⟩
  · have hsf := h.2.2.1 idCipher iv0 (some []) (List.replicate 17 0) 17 0 "f"
      (.Manual "v" false) entrySt4
      ((V04.set_field idCipher iv0 (some []) (List.replicate 17 0) 17 0 "f"
        (.Manual "v" false) 5 entrySt4).toOption.getD entrySt4) rfl rfl
    exact hsf.1
  · have hsw := h.2.2.2.2 idCipher idCipher iv0 (some []) (List.replicate 17 0) 17 fieldSt4
      (match V04.swap_encryption idCipher idCipher iv0 (some [])
          (List.replicate 17 0) 17 5 fieldSt4 with
        | .ok st2 => st2
        | _ => fieldSt4) rfl rfl
    exact hsw.1

/-- C9: TOTP display computation of `FieldRef::value`.  For a Totp field:
without the derived key the result is `ContentsNotUnlocked`; with it, the
stored secret is decrypted, the time slice is `unix_time / 30`, the code is
computed from the decrypted secret and that slice, and the display reports
`30 - unix_time % 30` seconds remaining; an invalid secret (the code
computation failing) gives `BadTotpSecret`, and a failed decryption
propagates as a `Decrypt` error. -/
theorem totp_value_computation
    (D : Bytes → Bytes → Bytes) (get_code : String → Nat → Option String)
    (unix_time : Nat) (iv : Bytes) (name issuer : String) (secret : Bytes) :
    (V04.value D get_code unix_time iv none ⟨name, .Totp issuer secret⟩ =
      .err .ContentsNotUnlocked) ∧
    (∀ (k : Bytes) (s : String) (c : String),
      decrypt_string D secret iv k = .ok s →
      get_code s (unix_time / 30) = some c →
      V04.value D get_code unix_time iv (some k) ⟨name, .Totp issuer secret⟩ =
        .ok (V04.totpDisplay c (30 - unix_time % 30))) ∧
    (∀ (k : Bytes) (s : String),
      decrypt_string D secret iv k = .ok s →
      get_code s (unix_time / 30) = none →
      V04.value D get_code unix_time iv (some k) ⟨name, .Totp issuer secret⟩ =
        .err .BadTotpSecret) ∧
    (∀ (k : Bytes) (e : DecryptError),
      decrypt_string D secret iv k = .err e →
      V04.value D get_code unix_time iv (some k) ⟨name, .Totp issuer secret⟩ =
        .err (.Decrypt e)) := by
  refine ⟨rfl, ?_, ?_, ?_⟩
  · intro k s c hd hc
    unfold V04.value
    simp [hd, hc]
  · intro k s hd hc
    unfold V04.value
    simp [hd, hc]
  · intro k e hd
    unfold V04.value
    simp [hd]

/-- Witness for C9: concrete secret ciphertext `secretCt` (encrypting
`topsecret`), a code oracle answering `123456` at slice 1, and Unix time 59,
giving the display for 1 second remaining; plus the locked-store error. -/
theorem totp_value_computation_witness :
    V04.value idCipher gc0 59 iv0 none ⟨"otp", .Totp "iss" secretCt⟩ =
      .err .ContentsNotUnlocked ∧
    V04.value idCipher gc0 59 iv0 (some []) ⟨"otp", .Totp "iss" secretCt⟩ =
      .ok (V04.totpDisplay "123456" 1) := by
  have h := totp_value_computation idCipher gc0 59 iv0 "otp" "iss" secretCt
  refine ⟨h.1, ?_⟩
  have h2 := h.2.1 [] "topsecret" "123456" (by rfl) (by rfl)
  simpa using h2

/-- C10: in every format version, `add_empty_entry` returns the previous
`num_entries` as the index of the new entry; afterwards the entry count has
grown by one, the entries list is the old list with one appended entry
carrying the given name, empty tags, no fields and equal
`first_added`/`last_update` timestamps (`now`), the pre-existing entries are
unchanged, the store's `last_update` is that same timestamp, the unsaved
flag is set, and the remaining content (and key) is untouched. -/
theorem add_empty_entry_spec :
    (∀ (st : Keyed V04.FileContent) (name : String) (now : Nat),
      (V04.add_empty_entry st name now).2 = V04.num_entries st ∧
      V04.num_entries (V04.add_empty_entry st name now).1 = V04.num_entries st + 1 ∧
      (V04.add_empty_entry st name now).1.content.inner =
        st.content.inner ++ [⟨name, [], [], now, now⟩] ∧
      (V04.add_empty_entry st name now).1.content.inner.take (V04.num_entries st) =
        st.content.inner ∧
      (V04.add_empty_entry st name now).1.content.inner.getLast? =
        some ⟨name, [], [], now, now⟩ ∧
      (V04.add_empty_entry st name now).1.content.last_update = now ∧
      (V04.add_empty_entry st name now).1.unsaved = true ∧
      (V04.add_empty_entry st name now).1.content.version = st.content.version ∧
      (V04.add_empty_entry st name now).1.content.token = st.content.token ∧
      (V04.add_empty_entry st name now).1.content.iv = st.content.iv ∧
      (V04.add_empty_entry st name now).1.content.salt = st.content.salt ∧
      (V04.add_empty_entry st name now).1.key = st.key) ∧
    (∀ (st : Keyed V03.FileContent) (name : String) (now : Nat),
      (V03.add_empty_entry st name now).2 = V03.num_entries st ∧
      V03.num_entries (V03.add_empty_entry st name now).1 = V03.num_entries st + 1 ∧
      (V03.add_empty_entry st name now).1.content.inner =
        st.content.inner ++ [⟨name, [], [], now, now⟩] ∧
      (V03.add_empty_entry st name now).1.content.inner.take (V03.num_entries st) =
        st.content.inner ∧
      (V03.add_empty_entry st name now).1.content.inner.getLast? =
        some ⟨name, [], [], now, now⟩ ∧
      (V03.add_empty_entry st name now).1.content.last_update = now ∧
      (V03.add_empty_entry st name now).1.unsaved = true ∧
      (V03.add_empty_entry st name now).1.key = st.key) ∧
    (∀ (st : Keyed V02.FileContent) (name : String) (now : Nat),
      (V02.add_empty_entry st name now).2 = V02.num_entries st ∧
      V02.num_entries (V02.add_empty_entry st name now).1 = V02.num_entries st + 1 ∧
      (V02.add_empty_entry st name now).1.content.inner =
        st.content.inner ++ [⟨name, [], [], now, now⟩] ∧
      (V02.add_empty_entry st name now).1.content.inner.take (V02.num_entries st) =
        st.content.inner ∧
      (V02.add_empty_entry st name now).1.content.inner.getLast? =
        some ⟨name, [], [], now, now⟩ ∧
      (V02.add_empty_entry st name now).1.content.last_update = now ∧
      (V02.add_empty_entry st name now).1.unsaved = true ∧
      (V02.add_empty_entry st name now).1.key = st.key) := by
  refine ⟨?_, ?_, ?_⟩
  · intro st name now
    refine ⟨rfl, ?_, rfl, ?_, ?_, rfl, rfl, rfl, rfl, rfl, rfl, rfl⟩
    · simp [V04.num_entries, V04.add_empty_entry]
    · exact List.take_left st.content.inner _
    · simp [V04.add_empty_entry]
  · intro st name now
    refine ⟨rfl, ?_, rfl, ?_, ?_, rfl, rfl, rfl⟩
    · simp [V03.num_entries, V03.add_empty_entry]
    · exact List.take_left st.content.inner _
    · simp [V03.add_empty_entry]
  · intro st name now
    refine ⟨rfl, ?_, rfl, ?_, ?_, rfl, rfl, rfl⟩
    · simp [V02.num_entries, V02.add_empty_entry]
    · exact List.take_left st.content.inner _
    · simp [V02.add_empty_entry]

end Passman

